import Mathlib

/-!
Verification development for the CPython extension-build script (`setup.py`).

The definitions below are a shallow embedding of the script's pure decision
logic.  The filesystem, the environment, the config store and the toolchain
collaborator are passed in as explicit function parameters (`String → Bool`
existence tests, `String → Option String` variable lookups, ...), and each
embedded function mirrors the control flow of the corresponding Python
function line by line.  Paths are modelled with POSIX semantics
(`os.path.join`, `os.path.dirname`, `os.path.splitext`, `os.path.isabs`),
which is the branch of `os.path` the script runs with on every platform on
which it actually builds extensions.  String primitives are re-implemented
on the character list underlying `String` so that every definition reduces
by computation.
-/

set_option autoImplicit false

namespace CPySetup

/-! ## String and POSIX path primitives -/

/-- `str.startswith`: character-list based so that it evaluates by `decide`. -/
def strStarts (s pre : String) : Bool := List.isPrefixOf pre.data s.data

/-- `str.endswith`. -/
def strEnds (s suf : String) : Bool := List.isSuffixOf suf.data s.data

/-- `s[n:]` for a character count `n`. -/
def strDrop (s : String) (n : Nat) : String := ⟨s.data.drop n⟩

/-- `os.path.isabs` for POSIX paths: absolute iff it starts with `/`. -/
def isabs (p : String) : Bool := strStarts p "/"

/-- Two-argument `os.path.join` for POSIX paths. -/
def pathJoin (a b : String) : String :=
  if strStarts b "/" then b
  else if a = "" || strEnds a "/" then a ++ b
  else a ++ "/" ++ b

/-- Auxiliary scan for `lastIdxWhere`: threads the index of the latest
element seen so far that satisfies the predicate. -/
def lastIdxWhereAux {α : Type} (p : α → Bool) :
    Option Nat → Nat → List α → Option Nat
  | acc, _, [] => acc
  | acc, i, a :: rest => lastIdxWhereAux p (if p a then some i else acc) (i + 1) rest

/-- Index of the last element satisfying `p`, or `none`.  Mirrors both
`str.rfind` (via `idxToInt`) and a Python `dict` built from `(key, index)`
pairs, where a later index overwrites an earlier one. -/
def lastIdxWhere {α : Type} (p : α → Bool) (l : List α) : Option Nat :=
  lastIdxWhereAux p none 0 l

/-- Convert an optional index to Python's `rfind` convention (`-1` if absent). -/
def idxToInt : Option Nat → Int
  | none => -1
  | some i => (i : Int)

/-- Remove every trailing occurrence of `c` (Python `str.rstrip(c)`). -/
def rstripChar (c : Char) (s : String) : String :=
  ⟨(s.data.reverse.dropWhile (fun x => x == c)).reverse⟩

/-- Remove every leading and trailing occurrence of `c` (Python `str.strip(c)`). -/
def stripChar (c : Char) (s : String) : String :=
  ⟨((s.data.dropWhile (fun x => x == c)).reverse.dropWhile (fun x => x == c)).reverse⟩

/-- `str.strip()` with no argument: trim whitespace on both ends
(modelled on ASCII whitespace). -/
def pyStrip (s : String) : String :=
  ⟨((s.data.dropWhile Char.isWhitespace).reverse.dropWhile Char.isWhitespace).reverse⟩

/-- Python truthiness of `os.environ.get` / `config_vars.get` results:
`None` and the empty string are falsy. -/
def pyTruthyOpt : Option String → Bool
  | none => false
  | some s => !s.data.isEmpty

/-- Prepend an element to the first chunk of a chunk list (helper for the
split functions below). -/
def consHead {α : Type} (a : α) : List (List α) → List (List α)
  | [] => [[a]]
  | h :: t => (a :: h) :: t

/-- Python `str.split(sep)` for a one-character separator, on character
lists: cut at each occurrence of `c`. -/
def split1 (c : Char) : List Char → List (List Char)
  | [] => [[]]
  | a :: rest =>
    if a == c then [] :: split1 c rest else consHead a (split1 c rest)

/-- Python `str.split(sep)` for a three-character separator, on character
lists: cut at each leftmost, non-overlapping occurrence of `[c1, c2, c3]`.
(Three characters is the shape of every multi-character separator the
source passes to `str.split`: a space followed by a two-character flag.) -/
def split3 (c1 c2 c3 : Char) : List Char → List (List Char)
  | a :: b :: c :: rest =>
    if a == c1 && b == c2 && c == c3 then
      [] :: split3 c1 c2 c3 rest
    else
      consHead a (split3 c1 c2 c3 (b :: c :: rest))
  | l => [l]

/-- Python `str.split(sep)` for a one-character separator. -/
def pySplitOn1 (s : String) (c : Char) : List String :=
  (split1 c s.data).map (fun l => (⟨l⟩ : String))

/-- Python `str.split(sep)` for a three-character separator. -/
def pySplitOn3 (s : String) (c1 c2 c3 : Char) : List String :=
  (split3 c1 c2 c3 s.data).map (fun l => (⟨l⟩ : String))

/-- Python `str.split()` with no argument: split on whitespace runs,
producing no empty tokens. -/
def pyWhitespaceSplit (s : String) : List String :=
  ((s.data.splitOnP Char.isWhitespace).map (fun l => (⟨l⟩ : String))).filter
    (fun t => !t.data.isEmpty)

/-- `os.path.dirname` for POSIX paths (`posixpath.dirname`). -/
def dirname (p : String) : String :=
  let l := p.data
  match lastIdxWhere (fun c => c == '/') l with
  | none => ""
  | some i =>
    let head := l.take (i + 1)
    if head.any (fun c => c != '/') then
      ⟨(head.reverse.dropWhile (fun c => c == '/')).reverse⟩
    else
      ⟨head⟩

/-- `os.path.splitext` for POSIX paths (`posixpath.splitext`):
split off the extension at the last dot of the last component, unless the
last component consists only of leading dots up to that position. -/
def pySplitext (p : String) : String × String :=
  let l := p.data
  let sepIndex := idxToInt (lastIdxWhere (fun c => c == '/') l)
  let dotIndex := idxToInt (lastIdxWhere (fun c => c == '.') l)
  if sepIndex < dotIndex then
    let base := (l.drop (sepIndex + 1).toNat).take (dotIndex - sepIndex - 1).toNat
    if base.any (fun c => c != '.') then
      (⟨l.take dotIndex.toNat⟩, ⟨l.drop dotIndex.toNat⟩)
    else
      (p, "")
  else
    (p, "")

/-! ## Path Search Engine -/

/-- `is_macosx_sdk_path` from the source. -/
def is_macosx_sdk_path (path : String) : Bool :=
  (strStarts path "/usr/" && !strStarts path "/usr/local")
    || strStarts path "/System/Library"
    || strStarts path "/System/iOSSupport"

/-- The path probed for `filename` inside directory `dir` by `find_file`:
`os.path.join(dir_, filename)`, rewritten to
`os.path.join(sysroot, dir_[1:], filename)` when running on macOS and the
directory is recognized as part of the SDK layout. -/
def ffProbe (macos : Bool) (sysroot dir filename : String) : String :=
  if macos && is_macosx_sdk_path dir then
    pathJoin (pathJoin sysroot (strDrop dir 1)) filename
  else
    pathJoin dir filename

/-- `find_file` from the source.  `ex` is `os.path.exists`.  The first loop
over `std_dirs` returns `[]` on the first hit; the second loop over `paths`
returns the (unmodified) first directory containing the file; otherwise the
result is `None`. -/
def find_file (ex : String → Bool) (macos : Bool) (sysroot : String)
    (filename : String) (std_dirs paths : List String) : Option (List String) :=
  if std_dirs.any (fun d => ex (ffProbe macos sysroot d filename)) then
    some []
  else
    match paths.find? (fun d => ex (ffProbe macos sysroot d filename)) with
    | some d => some [d]
    | none => none

/-- `find_module_file` from the source.  The second component records whether
the `len(dirs) > 1` warning branch was taken.  `abspath` is `os.path.abspath`
(a function of the current working directory, passed in). -/
def find_module_file (ex : String → Bool) (macos : Bool) (sysroot : String)
    (abspath : String → String) (module : String) (dirlist : List String) :
    String × Bool :=
  match find_file ex macos sysroot module [] dirlist with
  | none => (module, false)
  | some [] => (module, false)
  | some (d :: ds) => (abspath (pathJoin d module), !ds.isEmpty)

/-- Outcome of `find_library_file`: the compiler found nothing, the match was
in a standard directory (no extra search directive needed), the match was in
one extra directory, or the final `assert False` was reached. -/
inductive FLFResult
  | notFound
  | noExtra
  | extra (p : String)
  | assertFail
deriving DecidableEq, Repr

/-- The per-directory classification test of `find_library_file`: after
stripping trailing separators from `p`, either the macOS SDK-substituted
form of `p` or `p` itself equals the directory of the match. -/
def flfMatch (macos : Bool) (sysroot dn p : String) : Bool :=
  let p := rstripChar '/' p
  (macos && is_macosx_sdk_path p && pathJoin sysroot (strDrop p 1) == dn) || p == dn

/-- First loop of `find_library_file` (over `std_dirs`): did any standard
directory claim the match? -/
def flfStd (macos : Bool) (sysroot dn : String) : List String → Bool
  | [] => false
  | p :: rest =>
    if flfMatch macos sysroot dn p then true else flfStd macos sysroot dn rest

/-- Second loop of `find_library_file` (over `paths`): the first extra
directory claiming the match, returned with trailing separators stripped,
exactly as the source returns the reassigned loop variable. -/
def flfPaths (macos : Bool) (sysroot dn : String) : List String → Option String
  | [] => none
  | p :: rest =>
    if flfMatch macos sysroot dn p then some (rstripChar '/' p)
    else flfPaths macos sysroot dn rest

/-- `find_library_file` from the source.  `compilerFind` is the toolchain
collaborator `compiler.find_library_file`, called on `std_dirs + paths`. -/
def find_library_file (macos : Bool) (sysroot : String)
    (compilerFind : List String → String → Option String)
    (libname : String) (std_dirs paths : List String) : FLFResult :=
  match compilerFind (std_dirs ++ paths) libname with
  | none => FLFResult.notFound
  | some result =>
    let dn := dirname result
    if flfStd macos sysroot dn std_dirs then FLFResult.noExtra
    else
      match flfPaths macos sysroot dn paths with
      | some p => FLFResult.extra p
      | none => FLFResult.assertFail

/-! ## `add_dir_to_list` (standard insertion rule of the Path Search Engine) -/

/-- `add_dir_to_list` from the source: skip `None`, non-directories and
duplicates; otherwise scan for the first relative entry and insert right
after it, falling back to inserting at the front.  (`isdir` is
`os.path.isdir`.) -/
def add_dir_to_list (isdir : String → Bool) (dirlist : List String)
    (dir : Option String) : List String :=
  match dir with
  | none => dirlist
  | some d =>
    if !isdir d || dirlist.contains d then dirlist
    else
      match List.findIdx? (fun path => !isabs path) dirlist with
      | some i => dirlist.insertIdx (i + 1) d
      | none => d :: dirlist

/-- The SearchPath ordering invariant claimed by the spec: once an absolute
entry appears, every later entry is absolute (equivalently, every relative
entry precedes every absolute entry). -/
def relBeforeAbs (l : List String) : Bool :=
  (l.dropWhile (fun p => !isabs p)).all (fun p => isabs p)

/-! ## Module candidates and build state -/

/-- The fields of a `distutils` `Extension` that the functions under study
read or write. -/
structure Ext where
  name : String
  sources : List String
  define_macros : List (String × Option String) := []
  libraries : List String := []
  include_dirs : List String := []
  library_dirs : List String := []
  runtime_library_dirs : List String := []
  extra_link_args : List String := []
deriving DecidableEq, Repr

/-- The mutable registry state a detector touches: `self.missing` and
`self.extensions`. -/
structure BuildState where
  missing : List String
  extensions : List Ext
deriving DecidableEq, Repr

/-! ## Module Descriptor Registry: `remove_disabled` -/

/-- `remove_disabled` from the source: drop the globally disabled modules,
then build `ext_map` (a dict from name to index, later entries overwriting
earlier ones) and, when `"_ctypes"` is present, `pop` it and append it at
the end. -/
def remove_disabled (disabled : List String) (exts : List Ext) : List Ext :=
  let extensions := exts.filter (fun e => !disabled.contains e.name)
  match lastIdxWhere (fun e => e.name == "_ctypes") extensions with
  | some i =>
    match extensions.get? i with
    | some ctypes => extensions.eraseIdx i ++ [ctypes]
    | none => extensions
  | none => extensions

/-! ## Build-State Reconciler: `handle_configured_extensions` -/

/-- Result of `handle_configured_extensions`: the filtered compile set, the
two removed-name lists, and the names whose stale artifact
(`get_ext_fullpath(name)`) was unlinked. -/
structure ReconcileResult where
  extensions : List Ext
  mods_built : List Ext
  mods_disabled : List Ext
  unlinked : List String
deriving DecidableEq, Repr

/-- `handle_configured_extensions` from the source.  `built`, `shared` and
`dis` are the `MODBUILT_NAMES`, `MODSHARED_NAMES` and `MODDISABLED_NAMES`
config-store sets; `lexists` is `os.path.lexists` and `fullpath` is
`self.get_ext_fullpath`.  An artifact is unlinked exactly when its extension
was configured (built or disabled), is not among the shared modules, and its
file exists; `unlinked` records the names of those extensions. -/
def handle_configured_extensions (built shared dis : List String)
    (lexists : String → Bool) (fullpath : String → String) (exts : List Ext) :
    ReconcileResult :=
  let mods_built := exts.filter (fun e => built.contains e.name)
  let mods_disabled := exts.filter (fun e => dis.contains e.name)
  let mods_configured := mods_built ++ mods_disabled
  if mods_configured.isEmpty then
    ⟨exts, mods_built, mods_disabled, []⟩
  else
    let extensions := exts.filter (fun e => !mods_configured.contains e)
    let unlinked :=
      (mods_configured.filter
        (fun e => !shared.contains e.name && lexists (fullpath e.name))).map
        (fun e => e.name)
    ⟨extensions, mods_built, mods_disabled, unlinked⟩

/-! ## Outcome Reporter: `summary` -/

/-- The observable behaviour of `summary`: which category blocks are
printed, whether the dedicated ssl warning block is printed, and whether
the strict-mode `RuntimeError` is raised at the end. -/
structure SummaryReport where
  missingShown : Bool
  builtShown : Bool
  disabledShown : Bool
  disabledConfigureShown : Bool
  failedShown : Bool
  failedOnImportShown : Bool
  sslWarning : Bool
  strictError : Bool
deriving DecidableEq, Repr

/-- `summary` from the source.  `strictEnv` is
`os.environ.get("PYTHONSTRICTEXTENSIONBUILD")`; each block is printed iff
its list is non-empty; the ssl warning block is printed iff `'_ssl'` occurs
in `missing`, `failed` or `failed_on_import`; and the final `RuntimeError`
is raised iff the strict variable is truthy and `failed` or
`failed_on_import` is non-empty. -/
def summary (strictEnv : Option String)
    (missing failed failed_on_import disabled_configure : List String)
    (mods_built mods_disabled : List Ext) : SummaryReport :=
  { missingShown := !missing.isEmpty
    builtShown := !mods_built.isEmpty
    disabledShown := !mods_disabled.isEmpty
    disabledConfigureShown := !disabled_configure.isEmpty
    failedShown := !failed.isEmpty
    failedOnImportShown := !failed_on_import.isEmpty
    sslWarning :=
      [missing, failed, failed_on_import].any (fun l => l.contains "_ssl")
    strictError :=
      pyTruthyOpt strictEnv && (!failed.isEmpty || !failed_on_import.isEmpty) }

/-! ## Compile/Import Verifier: `check_extension_import` -/

/-- What `importlib._bootstrap._load` did on the built artifact: loaded
fine, raised `ImportError`, or raised some other exception. -/
inductive LoadResult
  | ok
  | importError
  | otherError
deriving DecidableEq, Repr

/-- The observable behaviour of `check_extension_import` on one extension:
the two failure lists afterwards, whether the check was skipped before
loading, the quarantine rename performed (if any), whether an existing
quarantine file was removed first, and whether the `assert not self.inplace`
assertion fired. -/
structure ImportCheckResult where
  failed : List String
  failed_on_import : List String
  skipped : Bool
  renamed : Option (String × String) := none
  removedBeforeRename : Bool := false
  assertionFailed : Bool := false
deriving DecidableEq, Repr

/-- `check_extension_import` from the source.  `macos`, `is64` (whether
`sys.maxsize > 2**32`), `cygwin` and `cross` are the platform facts;
`extFileOf` is `get_ext_filename ∘ get_ext_fullname`; `fsExists` is
`os.path.exists`; `load` is the outcome of the dynamic load attempt. -/
def check_extension_import (macos is64 cygwin cross inplace : Bool)
    (build_lib : String) (extFileOf : String → String)
    (fsExists : String → Bool) (load : LoadResult)
    (failed failed_on_import : List String) (ext : Ext) : ImportCheckResult :=
  if failed.contains ext.name then
    ⟨failed, failed_on_import, true, none, false, false⟩
  else if ext.extra_link_args.contains "Carbon" then
    ⟨failed, failed_on_import, true, none, false, false⟩
  else if macos && (is64 && ext.extra_link_args.contains "-arch") then
    ⟨failed, failed_on_import, true, none, false, false⟩
  else if cygwin then
    ⟨failed, failed_on_import, true, none, false, false⟩
  else
    let ext_filename := pathJoin build_lib (extFileOf ext.name)
    if cross then
      ⟨failed, failed_on_import, true, none, false, false⟩
    else
      match load with
      | LoadResult.ok => ⟨failed, failed_on_import, false, none, false, false⟩
      | LoadResult.importError =>
        let foi := failed_on_import ++ [ext.name]
        if inplace then
          ⟨failed, foi, false, none, false, true⟩
        else
          let st := pySplitext ext_filename
          let newname := st.1 ++ "_failed" ++ st.2
          ⟨failed, foi, false, some (ext_filename, newname),
            fsExists newname, false⟩
      | LoadResult.otherError =>
        ⟨failed ++ [ext.name], failed_on_import, false, none, false, false⟩

/-! ## Detector: `detect_dbm_gdbm` -/

/-- The config-store facts `detect_dbm_gdbm` reads
(`HAVE_*` sysconfig variables, by truthiness). -/
structure DbmHaves where
  ndbm_h : Bool
  gdbm_h : Bool
  gdbm_ndbm_h : Bool
  gdbm_dash_ndbm_h : Bool
  libndbm : Bool
  libgdbm : Bool
  libgdbm_compat : Bool
  libdb : Bool
deriving DecidableEq, Repr

/-- The `_dbm` candidate built in the `ndbm` branch: the link library
depends on which of `-lndbm` / `-lgdbm_compat` is available. -/
def ndbmExt (H : DbmHaves) : Ext :=
  { name := "_dbm"
    sources := ["_dbmmodule.c"]
    define_macros := [("USE_NDBM", none)]
    libraries :=
      if H.libndbm then ["ndbm"]
      else if H.libgdbm_compat then ["gdbm_compat"]
      else [] }

/-- The `_dbm` candidate built in the `gdbm` branch. -/
def gdbmCompatExt : Ext :=
  { name := "_dbm"
    sources := ["_dbmmodule.c"]
    define_macros := [("USE_GDBM_COMPAT", none)]
    libraries := ["gdbm_compat"] }

/-- The `_dbm` candidate built in the `bdb` branch. -/
def bdbExt : Ext :=
  { name := "_dbm"
    sources := ["_dbmmodule.c"]
    define_macros := [("USE_BERKDB", none)]
    libraries := ["db"] }

/-- The `_gdbm` candidate registered by the tail of `detect_dbm_gdbm`. -/
def gdbmExt : Ext :=
  { name := "_gdbm", sources := ["_gdbmmodule.c"], libraries := ["gdbm"] }

/-- The backend preference order: parse `CONFIG_ARGS` exactly as the source
does (whitespace-split, strip single quotes, keep the
`--with-dbmliborder=` options, take the last one and split its value at
`:`), defaulting to `ndbm:gdbm:bdb`. -/
def dbmOrderOf (config_args : String) : List String :=
  let toks := (pyWhitespaceSplit config_args).map (stripChar '\'')
  let dbm_args := toks.filter (fun arg => strStarts arg "--with-dbmliborder=")
  match dbm_args.getLast? with
  | none => pySplitOn1 "ndbm:gdbm:bdb" ':'
  | some arg => pySplitOn1 ((pySplitOn1 arg '=').getLastD "") ':'

/-- The `for cand in dbm_order` loop of `detect_dbm_gdbm`: the first
backend whose prerequisites hold wins (`break`), unknown backend names are
skipped, and no candidate is produced when none matches. -/
def dbmLoop (H : DbmHaves) : List String → Option Ext
  | [] => none
  | cand :: rest =>
    if cand == "ndbm" then
      if H.ndbm_h then some (ndbmExt H) else dbmLoop H rest
    else if cand == "gdbm" then
      if H.libgdbm_compat && (H.gdbm_ndbm_h || H.gdbm_dash_ndbm_h) then
        some gdbmCompatExt
      else dbmLoop H rest
    else if cand == "bdb" then
      if H.libdb then some bdbExt else dbmLoop H rest
    else
      dbmLoop H rest

/-- `detect_dbm_gdbm` from the source: on non-Cygwin platforms, register
one `_dbm` candidate for the first backend of the preference order whose
prerequisites are present, or record `_dbm` missing; then register `_gdbm`
iff `gdbm` is in the order and `-lgdbm` is available (on Cygwin the order
keeps its initial value `['gdbm']`). -/
def detect_dbm_gdbm (cygwin : Bool) (H : DbmHaves) (config_args : String)
    (st : BuildState) : BuildState :=
  let dbm_order_init := ["gdbm"]
  let or_st :=
    if cygwin then (dbm_order_init, st)
    else
      let dbm_order := dbmOrderOf config_args
      match dbmLoop H dbm_order with
      | some dbmext =>
        (dbm_order, { st with extensions := st.extensions ++ [dbmext] })
      | none =>
        (dbm_order, { st with missing := st.missing ++ ["_dbm"] })
  let dbm_order := or_st.1
  let st1 := or_st.2
  if dbm_order.contains "gdbm" && H.libgdbm then
    { st1 with extensions := st1.extensions ++ [gdbmExt] }
  else
    { st1 with missing := st1.missing ++ ["_gdbm"] }

/-! ## Detector: `detect_openssl_hashlib` -/

/-- `split_var` from the source: fetch a config value and split it at
`' ' + sep` occurrences, stripping and dropping empty pieces.  `sep` is
always a two-character flag (`-I`, `-L`, `-l`), passed here as its two
characters. -/
def split_var (config_vars : String → Option String) (name : String)
    (sep1 sep2 : Char) : List String :=
  match config_vars name with
  | none => []
  | some value =>
    if value.data.isEmpty then []
    else
      ((pySplitOn3 (" " ++ value) ' ' sep1 sep2).map pyStrip).filter
        (fun v => !v.data.isEmpty)

/-- The `_ssl` / `_hashlib` candidate assembled from the discovered OpenSSL
options (`openssl_extension_kwargs` in the source). -/
def opensslExt (nm : String) (srcs incs libdirs libs rtdirs xlink : List String) :
    Ext :=
  { name := nm
    sources := srcs
    include_dirs := incs
    library_dirs := libdirs
    libraries := libs
    runtime_library_dirs := rtdirs
    extra_link_args := xlink }

/-- `detect_openssl_hashlib` from the source.  `config_vars` is the config
store, `envStaticBuild` is `os.environ.get("PY_UNSUPPORTED_OPENSSL_BUILD")`,
and `ex`/`macos`/`sysroot`/`inc_dirs` feed the `find_file` probe for
`openssl/ssl.h`.  When no link libraries are configured, or the header is
not found, both `_ssl` and `_hashlib` go to `missing` and nothing is
registered; otherwise both extensions are registered with the shared
keyword arguments (rewritten by the unsupported static-linking mode when
requested). -/
def detect_openssl_hashlib (config_vars : String → Option String)
    (envStaticBuild : Option String) (ex : String → Bool) (macos : Bool)
    (sysroot : String) (inc_dirs : List String) (st : BuildState) :
    BuildState :=
  let openssl_includes := split_var config_vars "OPENSSL_INCLUDES" '-' 'I'
  let openssl_libdirs := split_var config_vars "OPENSSL_LDFLAGS" '-' 'L'
  let openssl_libs := split_var config_vars "OPENSSL_LIBS" '-' 'l'
  let openssl_rpath := config_vars "OPENSSL_RPATH"
  if openssl_libs.isEmpty then
    { st with missing := st.missing ++ ["_ssl", "_hashlib"] }
  else
    match find_file ex macos sysroot "openssl/ssl.h" inc_dirs openssl_includes with
    | none => { st with missing := st.missing ++ ["_ssl", "_hashlib"] }
    | some _ =>
      let runtime_library_dirs :=
        if openssl_rpath == some "auto" then openssl_libdirs
        else if !pyTruthyOpt openssl_rpath then []
        else [openssl_rpath.getD ""]
      let static := envStaticBuild == some "static"
      let libraries := if static then ["z"] else openssl_libs
      let extra_link_args :=
        if static then
          (openssl_libs.map (fun lib =>
            ["-l:lib" ++ lib ++ ".a", "-Wl,--exclude-libs,lib" ++ lib ++ ".a"])).flatten
        else []
      { st with extensions := st.extensions ++
          [opensslExt "_ssl" ["_ssl.c"] openssl_includes openssl_libdirs
            libraries runtime_library_dirs extra_link_args,
          opensslExt "_hashlib" ["_hashopenssl.c"] openssl_includes
            openssl_libdirs libraries runtime_library_dirs extra_link_args] }

example : pathJoin "/usr/lib" "libm.a" = "/usr/lib/libm.a" := by decide
example : dirname "/usr/lib/libm.a" = "/usr/lib" := by decide
example : dirname "/libm.a" = "/" := by decide
example : pySplitext "/b/foo.so" = ("/b/foo", ".so") := by decide
example : pySplitext "/b/.hidden" = ("/b/.hidden", "") := by decide
example : pySplitOn3 " -lssl -lcrypto" ' ' '-' 'l' = ["", "ssl", "crypto"] := by decide
example : pySplitOn1 "ndbm:gdbm:bdb" ':' = ["ndbm", "gdbm", "bdb"] := by decide
example : pyWhitespaceSplit "  a  bc " = ["a", "bc"] := by decide

/-! ## Helper lemmas -/

theorem contains_true_iff {α : Type} [BEq α] [LawfulBEq α] (l : List α)
    (a : α) : l.contains a = true ↔ a ∈ l := by
  simp [List.contains, List.elem_iff]

theorem contains_false_iff {α : Type} [BEq α] [LawfulBEq α] (l : List α)
    (a : α) : l.contains a = false ↔ a ∉ l := by
  rw [← contains_true_iff l a]
  cases l.contains a <;> simp

theorem find?_append_first {α : Type} (p : α → Bool) (q₁ : List α) (d : α)
    (q₂ : List α) (h1 : ∀ x ∈ q₁, p x = false) (hd : p d = true) :
    (q₁ ++ d :: q₂).find? p = some d := by
  induction q₁ with
  | nil => simp [List.find?, hd]
  | cons a q ih =>
    have ha : p a = false := h1 a (List.mem_cons_self a q)
    simp only [List.cons_append, List.find?, ha]
    exact ih (fun x hx => h1 x (List.mem_cons_of_mem a hx))

/-! ## C1: strict-failure behaviour of `summary` -/

/-- C1 (counterexample): with the strict flag set, a non-empty missing list
and no build or import failures, `summary` does *not* raise the strict
`RuntimeError`, contrary to the claim that the run must then end in an
error. -/
theorem summary_missing_only_no_strict_error :
    (summary (some "1") ["_foo"] [] [] [] [] []).strictError = false := by
  decide

/-- C1 (amended): the strict `RuntimeError` at the end of `summary` is
raised exactly when the strict environment flag is truthy and the
build-failed or import-failed list is non-empty; the missing list plays no
role in the decision. -/
theorem summary_strict_error_iff (strictEnv : Option String)
    (missing missing' failed failed_on_import disabled_configure : List String)
    (mods_built mods_disabled : List Ext) :
    ((summary strictEnv missing failed failed_on_import disabled_configure
        mods_built mods_disabled).strictError = true
      ↔ pyTruthyOpt strictEnv = true ∧ (failed ≠ [] ∨ failed_on_import ≠ []))
    ∧ (summary strictEnv missing failed failed_on_import disabled_configure
        mods_built mods_disabled).strictError
      = (summary strictEnv missing' failed failed_on_import disabled_configure
          mods_built mods_disabled).strictError := by
  constructor
  · simp [summary, List.isEmpty_iff]
  · rfl

/-! ## C2: the `add_dir_to_list` insertion rule -/

/-- C2 (code evaluated at the failing input): starting from the empty list
and inserting the existing relative directories `"a"` and `"b"` and then
the existing absolute directory `"/c"` through `add_dir_to_list`, the
absolute entry `"/c"` lands *between* the two relative entries, so the
claimed invariant "relative entries precede absolute entries" fails: the
code inserts after the *first* relative entry instead of after all of
them, contradicting its own docstring. -/
theorem add_dir_to_list_breaks_rel_before_abs :
    add_dir_to_list (fun _ => true)
      (add_dir_to_list (fun _ => true)
        (add_dir_to_list (fun _ => true) [] (some "a")) (some "b"))
      (some "/c") = ["a", "/c", "b"]
    ∧ relBeforeAbs ["a", "/c", "b"] = false
    ∧ relBeforeAbs ["a", "b"] = true := by
  decide

/-! ## C3: `find_file` precedence and first-match behaviour -/

/-- C3: `find_file` returns the empty list whenever the file exists under
some standard directory (after SDK-root substitution, folded into the
probe); otherwise it returns the one-element list naming the first extra
directory containing the file; otherwise `None`.  Standard directories are
checked before extra ones, and the directory lists are used exactly as
given. -/
theorem find_file_characterization (ex : String → Bool) (macos : Bool)
    (sysroot filename : String) (std_dirs paths : List String) :
    ((∃ d ∈ std_dirs, ex (ffProbe macos sysroot d filename) = true) →
      find_file ex macos sysroot filename std_dirs paths = some [])
    ∧ ((∀ d ∈ std_dirs, ex (ffProbe macos sysroot d filename) = false) →
        ∀ (q₁ : List String) (d : String) (q₂ : List String),
          paths = q₁ ++ d :: q₂ →
          (∀ d' ∈ q₁, ex (ffProbe macos sysroot d' filename) = false) →
          ex (ffProbe macos sysroot d filename) = true →
          find_file ex macos sysroot filename std_dirs paths = some [d])
    ∧ ((∀ d ∈ std_dirs, ex (ffProbe macos sysroot d filename) = false) →
        (∀ d ∈ paths, ex (ffProbe macos sysroot d filename) = false) →
        find_file ex macos sysroot filename std_dirs paths = none) := by
  refine ⟨fun ⟨d, hd, hex⟩ => ?_, fun hstd q₁ d q₂ hp h1 hd => ?_, fun hstd hpaths => ?_⟩
  · simp only [find_file, List.any_eq_true]
    rw [if_pos ⟨d, hd, hex⟩]
  · have hany : std_dirs.any (fun d => ex (ffProbe macos sysroot d filename)) = false := by
      simp only [List.any_eq_false]
      intro x hx
      simp [hstd x hx]
    simp only [find_file, hany, Bool.false_eq_true, if_false]
    rw [hp, find?_append_first _ q₁ d q₂ h1 hd]
  · have hany : std_dirs.any (fun d => ex (ffProbe macos sysroot d filename)) = false := by
      simp only [List.any_eq_false]
      intro x hx
      simp [hstd x hx]
    have hfind : paths.find? (fun d => ex (ffProbe macos sysroot d filename)) = none := by
      rw [List.find?_eq_none]
      intro x hx
      simp [hpaths x hx]
    simp only [find_file, hany, Bool.false_eq_true, if_false, hfind]

/-- Concrete filesystem for the C3 witness: exactly `/b/m.c` exists. -/
def exW3 : String → Bool := fun s => s == "/b/m.c"

/-- C3 (witness): with only `/b/m.c` on disk, a missing standard directory
and extra directories `["/a", "/b"]`, `find_file` returns `["/b"]`. -/
theorem find_file_characterization_witness :
    find_file exW3 false "" "m.c" ["/s"] ["/a", "/b"] = some ["/b"] :=
  (find_file_characterization exW3 false "" "m.c" ["/s"] ["/a", "/b"]).2.1
    (by decide) ["/a"] "/b" [] rfl (by decide) (by decide)

/-! ## C10: `find_file` result shape and `find_module_file` -/

/-- C10: `find_file` only ever returns `None`, the empty list, or a
one-element list; consequently the multiple-copies warning branch of
`find_module_file` is unreachable and `find_module_file` returns either the
bare filename or the absolute path of the single found directory joined
with the filename. -/
theorem find_file_small_find_module_file (ex : String → Bool) (macos : Bool)
    (sysroot filename : String) (abspath : String → String) (module : String)
    (std_dirs paths dirlist : List String) :
    (find_file ex macos sysroot filename std_dirs paths = none
      ∨ find_file ex macos sysroot filename std_dirs paths = some []
      ∨ ∃ d, find_file ex macos sysroot filename std_dirs paths = some [d])
    ∧ (find_module_file ex macos sysroot abspath module dirlist).2 = false
    ∧ ((find_module_file ex macos sysroot abspath module dirlist).1 = module
        ∨ ∃ d, find_file ex macos sysroot module [] dirlist = some [d]
            ∧ (find_module_file ex macos sysroot abspath module dirlist).1
              = abspath (pathJoin d module)) := by
  refine ⟨?_, ?_⟩
  · unfold find_file
    by_cases h : std_dirs.any (fun d => ex (ffProbe macos sysroot d filename)) = true
    · simp [h]
    · simp only [h, if_false]
      cases hf : paths.find? (fun d => ex (ffProbe macos sysroot d filename)) with
      | none => exact Or.inl rfl
      | some d => exact Or.inr (Or.inr ⟨d, rfl⟩)
  · unfold find_module_file find_file
    simp only [List.any_nil, Bool.false_eq_true, if_false]
    cases hf : dirlist.find? (fun d => ex (ffProbe macos sysroot d module)) with
    | none => exact ⟨rfl, Or.inl rfl⟩
    | some d =>
      refine ⟨rfl, Or.inr ⟨d, ?_, rfl⟩⟩
      simp [find_file, hf]

/-! ## C9: `find_library_file` never reaches the `assert False` on a
classified match -/

theorem flfStd_of_mem (macos : Bool) (sysroot dn : String) (p : String)
    (std : List String) (hp : p ∈ std)
    (hm : flfMatch macos sysroot dn p = true) :
    flfStd macos sysroot dn std = true := by
  induction std with
  | nil => cases hp
  | cons a rest ih =>
    rw [flfStd]
    rcases List.mem_cons.mp hp with h | h
    · subst h
      rw [if_pos hm]
    · by_cases ha : flfMatch macos sysroot dn a = true
      · rw [if_pos ha]
      · rw [if_neg ha]
        exact ih h

theorem flfPaths_isSome_of_mem (macos : Bool) (sysroot dn : String)
    (p : String) (paths : List String) (hp : p ∈ paths)
    (hm : flfMatch macos sysroot dn p = true) :
    ∃ q, flfPaths macos sysroot dn paths = some q := by
  induction paths with
  | nil => cases hp
  | cons a rest ih =>
    rw [flfPaths]
    by_cases ha : flfMatch macos sysroot dn a = true
    · exact ⟨rstripChar '/' a, by rw [if_pos ha]⟩
    · rw [if_neg ha]
      rcases List.mem_cons.mp hp with h | h

      · subst h
        exact absurd hm ha
      · exact ih h

/-- C9: whenever the toolchain collaborator reports a match whose directory
is classified as belonging to the standard or extra directory list
(the source's own per-directory test, trailing-separator stripping and
macOS SDK substitution included), `find_library_file` returns the empty
list or a one-element list and never reaches the final
`assert False, "Internal error: Path not found in std_dirs or paths"`. -/
theorem find_library_file_no_assert (macos : Bool) (sysroot : String)
    (compilerFind : List String → String → Option String) (libname : String)
    (std_dirs paths : List String) (r : String)
    (hfound : compilerFind (std_dirs ++ paths) libname = some r)
    (hclass : ∃ p ∈ std_dirs ++ paths,
      flfMatch macos sysroot (dirname r) p = true) :
    (find_library_file macos sysroot compilerFind libname std_dirs paths
        = FLFResult.noExtra
      ∨ ∃ q, find_library_file macos sysroot compilerFind libname std_dirs paths
          = FLFResult.extra q)
    ∧ find_library_file macos sysroot compilerFind libname std_dirs paths
        ≠ FLFResult.assertFail := by
  obtain ⟨p, hp, hm⟩ := hclass
  have main : find_library_file macos sysroot compilerFind libname std_dirs paths
      = FLFResult.noExtra
      ∨ ∃ q, find_library_file macos sysroot compilerFind libname std_dirs paths
          = FLFResult.extra q := by
    unfold find_library_file
    rcases List.mem_append.mp hp with h | h
    · simp only [hfound, flfStd_of_mem macos sysroot (dirname r) p std_dirs h hm,
        if_true]
      exact Or.inl trivial
    · by_cases hstd : flfStd macos sysroot (dirname r) std_dirs = true
      · simp only [hfound, hstd, if_true]
        exact Or.inl trivial
      · rw [Bool.not_eq_true] at hstd
        obtain ⟨q, hq⟩ := flfPaths_isSome_of_mem macos sysroot (dirname r) p paths h hm
        simp only [hfound, hstd, Bool.false_eq_true, if_false, hq]
        exact Or.inr ⟨q, rfl⟩
  refine ⟨main, ?_⟩
  rcases main with h | ⟨q, h⟩ <;> simp [h]

/-- Concrete toolchain collaborator for the C9 witness: the match is always
`/usr/lib/libm.a`. -/
def cfindW : List String → String → Option String := fun _ _ => some "/usr/lib/libm.a"

/-- C9 (witness): with the match `/usr/lib/libm.a` lying under the standard
directory `/usr/lib`, `find_library_file` classifies it and does not reach
the assertion. -/
theorem find_library_file_no_assert_witness :
    find_library_file false "" cfindW "m" ["/usr/lib"] ["/extra"]
      ≠ FLFResult.assertFail :=
  (find_library_file_no_assert false "" cfindW "m" ["/usr/lib"] ["/extra"]
    "/usr/lib/libm.a" rfl (by decide)).2

/-! ## C8: `remove_disabled` moves `_ctypes` to the end -/

theorem lastIdxWhereAux_append {α : Type} (p : α → Bool) (l₁ l₂ : List α) :
    ∀ (acc : Option Nat) (i : Nat),
      lastIdxWhereAux p acc i (l₁ ++ l₂)
        = lastIdxWhereAux p (lastIdxWhereAux p acc i l₁) (i + l₁.length) l₂ := by
  induction l₁ with
  | nil => intro acc i; simp [lastIdxWhereAux]
  | cons a rest ih =>
    intro acc i
    simp only [List.cons_append, lastIdxWhereAux, List.length_cons, List.append_eq]
    rw [ih]
    congr 1
    omega

theorem lastIdxWhereAux_of_none {α : Type} (p : α → Bool) (l : List α)
    (hl : ∀ a ∈ l, p a = false) :
    ∀ (acc : Option Nat) (i : Nat), lastIdxWhereAux p acc i l = acc := by
  induction l with
  | nil => intro acc i; rfl
  | cons a rest ih =>
    intro acc i
    rw [lastIdxWhereAux, hl a (List.mem_cons_self a rest)]
    exact ih (fun x hx => hl x (List.mem_cons_of_mem a hx)) acc (i + 1)

theorem lastIdxWhere_append_cons {α : Type} (p : α → Bool) (l₁ : List α)
    (c : α) (l₂ : List α) (hc : p c = true) (hl₂ : ∀ a ∈ l₂, p a = false) :
    lastIdxWhere p (l₁ ++ c :: l₂) = some l₁.length := by
  rw [lastIdxWhere, lastIdxWhereAux_append, lastIdxWhereAux, hc,
    lastIdxWhereAux_of_none p l₂ hl₂]
  simp

theorem get?_append_cons {α : Type} (l₁ : List α) (c : α) (l₂ : List α) :
    (l₁ ++ c :: l₂).get? l₁.length = some c := by
  induction l₁ with
  | nil => rfl
  | cons a rest ih => simpa using ih

theorem eraseIdx_append_cons {α : Type} (l₁ : List α) (c : α) (l₂ : List α) :
    (l₁ ++ c :: l₂).eraseIdx l₁.length = l₁ ++ l₂ := by
  induction l₁ with
  | nil => rfl
  | cons a rest ih => simpa [List.eraseIdx] using ih

/-- C8: after `remove_disabled`, if the filtered registry contains a
`_ctypes` candidate (`l₁ ++ c :: l₂` with no `_ctypes` after it), that
candidate is moved to the end and the relative order of all other
candidates is preserved. -/
theorem remove_disabled_ctypes_last (disabled : List String) (exts : List Ext)
    (l₁ : List Ext) (c : Ext) (l₂ : List Ext)
    (hfilter : exts.filter (fun e => !disabled.contains e.name) = l₁ ++ c :: l₂)
    (hc : c.name = "_ctypes") (hl₂ : ∀ e ∈ l₂, e.name ≠ "_ctypes") :
    remove_disabled disabled exts = l₁ ++ l₂ ++ [c] := by
  have hcb : ((fun e : Ext => e.name == "_ctypes") c) = true := by
    simp [hc]
  have hl₂b : ∀ e ∈ l₂, ((fun e : Ext => e.name == "_ctypes") e) = false := by
    intro e he
    simpa using hl₂ e he
  rw [remove_disabled, hfilter, lastIdxWhere_append_cons _ l₁ c l₂ hcb hl₂b]
  show (match (l₁ ++ c :: l₂).get? l₁.length with
        | some ctypes => (l₁ ++ c :: l₂).eraseIdx l₁.length ++ [ctypes]
        | none => l₁ ++ c :: l₂) = l₁ ++ l₂ ++ [c]
  rw [get?_append_cons]
  show (l₁ ++ c :: l₂).eraseIdx l₁.length ++ [c] = l₁ ++ l₂ ++ [c]
  rw [eraseIdx_append_cons]

/-- Concrete registry for the C8 witness: `_ctypes` registered between
`_socket` and `_dbm`. -/
def extsW8 : List Ext :=
  [{ name := "_socket", sources := ["socketmodule.c"] },
   { name := "_ctypes", sources := ["_ctypes/_ctypes.c"] },
   { name := "_dbm", sources := ["_dbmmodule.c"] }]

/-- C8 (witness): on the concrete registry, `remove_disabled` moves the
`_ctypes` candidate past `_dbm` to the end. -/
theorem remove_disabled_ctypes_last_witness :
    remove_disabled [] extsW8
      = [{ name := "_socket", sources := ["socketmodule.c"] },
         { name := "_dbm", sources := ["_dbmmodule.c"] },
         { name := "_ctypes", sources := ["_ctypes/_ctypes.c"] }] :=
  remove_disabled_ctypes_last [] extsW8
    [{ name := "_socket", sources := ["socketmodule.c"] }]
    { name := "_ctypes", sources := ["_ctypes/_ctypes.c"] }
    [{ name := "_dbm", sources := ["_dbmmodule.c"] }]
    (by decide) rfl (by decide)

/-! ## C4: `handle_configured_extensions` -/

/-- C4: every extension whose name is in the already-built set and not in
the already-shared set is removed from the compile set, and its stale
artifact is unlinked when it exists; no artifact of an extension named in
the already-shared set is ever unlinked. -/
theorem handle_configured_extensions_spec (built shared dis : List String)
    (lexists : String → Bool) (fullpath : String → String) (exts : List Ext) :
    (∀ e : Ext, e ∈ exts → e.name ∈ built → e.name ∉ shared →
      e ∉ (handle_configured_extensions built shared dis lexists fullpath
            exts).extensions
      ∧ (lexists (fullpath e.name) = true →
          e.name ∈ (handle_configured_extensions built shared dis lexists
            fullpath exts).unlinked))
    ∧ (∀ n ∈ shared,
        n ∉ (handle_configured_extensions built shared dis lexists fullpath
          exts).unlinked) := by
  constructor
  · intro e he hbuilt hnosh
    have hcb : built.contains e.name = true :=
      (contains_true_iff built e.name).mpr hbuilt
    have hmb : e ∈ exts.filter (fun e => built.contains e.name) :=
      List.mem_filter.mpr ⟨he, hcb⟩
    have hmc : e ∈ exts.filter (fun e => built.contains e.name)
        ++ exts.filter (fun e => dis.contains e.name) :=
      List.mem_append_left _ hmb
    have hne : (exts.filter (fun e => built.contains e.name)
        ++ exts.filter (fun e => dis.contains e.name)).isEmpty = false := by
      cases h : (exts.filter (fun e => built.contains e.name)
          ++ exts.filter (fun e => dis.contains e.name)).isEmpty
      · rfl
      · exact absurd ((List.isEmpty_iff.mp h) ▸ hmc) (List.not_mem_nil e)
    constructor
    · intro hmem
      simp only [handle_configured_extensions, hne, Bool.false_eq_true,
        if_false] at hmem
      have hpred := (List.mem_filter.mp hmem).2
      simp only [Bool.not_eq_true'] at hpred
      exact (contains_false_iff _ e).mp hpred hmc
    · intro hlex
      simp only [handle_configured_extensions, hne, Bool.false_eq_true, if_false]
      refine List.mem_map.mpr ⟨e, List.mem_filter.mpr ⟨hmc, ?_⟩, rfl⟩
      have hns : shared.contains e.name = false :=
        (contains_false_iff shared e.name).mpr hnosh
      simp [hns, hlex, hnosh]
  · intro n hn hmem
    simp only [handle_configured_extensions] at hmem
    by_cases hne : (exts.filter (fun e => built.contains e.name)
        ++ exts.filter (fun e => dis.contains e.name)).isEmpty = true
    · simp only [hne, if_true] at hmem
      exact List.not_mem_nil n hmem
    · rw [Bool.not_eq_true] at hne
      simp only [hne, Bool.false_eq_true, if_false] at hmem
      obtain ⟨e, hef, hename⟩ := List.mem_map.mp hmem
      have hpred := (List.mem_filter.mp hef).2
      have hns : e.name ∉ shared := by
        have hpred' : (!shared.contains e.name && lexists (fullpath e.name)) = true :=
          hpred
        intro hmemsh
        rw [(contains_true_iff shared e.name).mpr hmemsh] at hpred'
        simp at hpred'
      exact hns (by rw [hename]; exact hn)

/-- Concrete extensions for the C4 witness. -/
def extsW4 : List Ext :=
  [{ name := "_sha256", sources := ["sha256module.c"] },
   { name := "_md5", sources := ["md5module.c"] }]

/-- C4 (witness): with `_sha256` already built and not shared and `_md5`
already built and shared, `_sha256` leaves the compile set and its artifact
is unlinked, while `_md5`'s artifact is kept. -/
theorem handle_configured_extensions_spec_witness :
    ({ name := "_sha256", sources := ["sha256module.c"] } : Ext)
      ∉ (handle_configured_extensions ["_sha256", "_md5"] ["_md5"] []
          (fun _ => true) (fun n => n) extsW4).extensions
    ∧ "_sha256" ∈ (handle_configured_extensions ["_sha256", "_md5"] ["_md5"] []
        (fun _ => true) (fun n => n) extsW4).unlinked
    ∧ "_md5" ∉ (handle_configured_extensions ["_sha256", "_md5"] ["_md5"] []
        (fun _ => true) (fun n => n) extsW4).unlinked := by
  have h := handle_configured_extensions_spec ["_sha256", "_md5"] ["_md5"] []
    (fun _ => true) (fun n => n) extsW4
  have h1 := h.1 { name := "_sha256", sources := ["sha256module.c"] }
    (by decide) (by decide) (by decide)
  exact ⟨h1.1, h1.2 rfl, h.2 "_md5" (by decide)⟩

/-! ## C5: missing OpenSSL link libraries and the ssl warning block -/

/-- C5: when the config store records no OpenSSL link libraries, the
detector appends both `_ssl` and `_hashlib` to the missing list and
registers neither extension; and whenever `_ssl` occurs in the missing,
build-failed or import-failed list, `summary` prints the dedicated ssl
warning block. -/
theorem detect_openssl_hashlib_missing_and_ssl_warning :
    (∀ (config_vars : String → Option String) (envStaticBuild : Option String)
      (ex : String → Bool) (macos : Bool) (sysroot : String)
      (inc_dirs : List String) (st : BuildState),
      (config_vars "OPENSSL_LIBS" = none ∨ config_vars "OPENSSL_LIBS" = some "") →
      detect_openssl_hashlib config_vars envStaticBuild ex macos sysroot
          inc_dirs st
        = { st with missing := st.missing ++ ["_ssl", "_hashlib"] })
    ∧ (∀ (strictEnv : Option String)
        (missing failed failed_on_import disabled_configure : List String)
        (mods_built mods_disabled : List Ext),
        ("_ssl" ∈ missing ∨ "_ssl" ∈ failed ∨ "_ssl" ∈ failed_on_import) →
        (summary strictEnv missing failed failed_on_import disabled_configure
          mods_built mods_disabled).sslWarning = true) := by
  constructor
  · intro config_vars envStaticBuild ex macos sysroot inc_dirs st h
    rcases h with h | h <;>
      simp [detect_openssl_hashlib, split_var, h]
  · intro strictEnv missing failed failed_on_import disabled_configure mb md h
    simp only [summary, List.any_eq_true]
    rcases h with h | h | h
    · exact ⟨missing, by simp, (contains_true_iff _ _).mpr h⟩
    · exact ⟨failed, by simp, (contains_true_iff _ _).mpr h⟩
    · exact ⟨failed_on_import, by simp, (contains_true_iff _ _).mpr h⟩

/-- Concrete config store for the C5 witness: every variable is absent. -/
def cfgW5 : String → Option String := fun _ => none

/-- C5 (witness): with no OpenSSL configuration at all, the detector marks
`_ssl` and `_hashlib` missing and registers nothing, and the report for a
missing `_ssl` carries the ssl warning block. -/
theorem detect_openssl_hashlib_missing_witness :
    detect_openssl_hashlib cfgW5 none (fun _ => false) false "" [] ⟨[], []⟩
        = ⟨["_ssl", "_hashlib"], []⟩
    ∧ (summary none ["_ssl"] [] [] [] [] []).sslWarning = true := by
  constructor
  · exact (detect_openssl_hashlib_missing_and_ssl_warning.1 cfgW5 none
      (fun _ => false) false "" [] ⟨[], []⟩ (Or.inl rfl)).trans (by decide)
  · exact detect_openssl_hashlib_missing_and_ssl_warning.2 none ["_ssl"] [] []
      [] [] [] (Or.inl (by decide))

/-! ## C6: import-check failure handling -/

/-- C6: for an extension whose import check is not skipped, an
`ImportError` during the load records the extension as import-failed and
renames the artifact to its quarantine name (removing a pre-existing file
of that name first), while any other exception records it as build-failed
without renaming. -/
theorem check_extension_import_spec (macos is64 : Bool) (build_lib : String)
    (extFileOf : String → String) (fsExists : String → Bool)
    (failed failed_on_import : List String) (ext : Ext)
    (h1 : ext.name ∉ failed)
    (h2 : "Carbon" ∉ ext.extra_link_args)
    (h3 : ¬(macos = true ∧ is64 = true ∧ "-arch" ∈ ext.extra_link_args)) :
    (check_extension_import macos is64 false false false build_lib extFileOf
        fsExists LoadResult.importError failed failed_on_import ext
      = ⟨failed, failed_on_import ++ [ext.name], false,
          some (pathJoin build_lib (extFileOf ext.name),
            (pySplitext (pathJoin build_lib (extFileOf ext.name))).1
              ++ "_failed"
              ++ (pySplitext (pathJoin build_lib (extFileOf ext.name))).2),
          fsExists ((pySplitext (pathJoin build_lib (extFileOf ext.name))).1
            ++ "_failed"
            ++ (pySplitext (pathJoin build_lib (extFileOf ext.name))).2),
          false⟩)
    ∧ (check_extension_import macos is64 false false false build_lib extFileOf
        fsExists LoadResult.otherError failed failed_on_import ext
      = ⟨failed ++ [ext.name], failed_on_import, false, none, false, false⟩) := by
  constructor <;> simp [check_extension_import, h1, h2, h3]

/-- The extension checked in the C6 witness. -/
def extW6 : Ext := { name := "_testcapi", sources := ["_testcapimodule.c"] }

/-- C6 (witness): a concrete `ImportError` case: `_testcapi` is appended to
the import-failed list and `/b/_testcapi.so` is renamed to
`/b/_testcapi_failed.so`, whose previous copy existed and was removed. -/
theorem check_extension_import_spec_witness :
    check_extension_import false false false false false "/b"
        (fun n => n ++ ".so") (fun _ => true) LoadResult.importError [] [] extW6
      = ⟨[], ["_testcapi"], false,
          some ("/b/_testcapi.so", "/b/_testcapi_failed.so"), true, false⟩ :=
  ((check_extension_import_spec false false "/b" (fun n => n ++ ".so")
      (fun _ => true) [] [] extW6 (by decide) (by decide) (by decide)).1).trans
    (by decide)

/-! ## C7: the dbm backend preference order -/

/-- Prerequisite test for one dbm backend name, read off the branch guards
of the `for cand in dbm_order` loop. -/
def dbmPrereq (H : DbmHaves) (cand : String) : Bool :=
  if cand == "ndbm" then H.ndbm_h
  else if cand == "gdbm" then
    H.libgdbm_compat && (H.gdbm_ndbm_h || H.gdbm_dash_ndbm_h)
  else if cand == "bdb" then H.libdb
  else false

/-- The `_dbm` candidate the loop registers for a matching backend name. -/
def dbmExtFor (H : DbmHaves) (cand : String) : Ext :=
  if cand == "ndbm" then ndbmExt H
  else if cand == "gdbm" then gdbmCompatExt
  else bdbExt

theorem dbmLoop_cons_false (H : DbmHaves) (cand : String) (rest : List String)
    (hc : dbmPrereq H cand = false) :
    dbmLoop H (cand :: rest) = dbmLoop H rest := by
  rw [dbmLoop]
  by_cases h1 : (cand == "ndbm") = true
  · rw [dbmPrereq, if_pos h1] at hc
    simp [h1, hc]
  · by_cases h2 : (cand == "gdbm") = true
    · rw [dbmPrereq, if_neg h1, if_pos h2] at hc
      simp [h1, h2, hc]
    · by_cases h3 : (cand == "bdb") = true
      · rw [dbmPrereq, if_neg h1, if_neg h2, if_pos h3] at hc
        simp [h1, h2, h3, hc]
      · simp [h1, h2, h3]

theorem dbmLoop_cons_true (H : DbmHaves) (cand : String) (rest : List String)
    (hc : dbmPrereq H cand = true) :
    dbmLoop H (cand :: rest) = some (dbmExtFor H cand) := by
  rw [dbmLoop, dbmExtFor]
  by_cases h1 : (cand == "ndbm") = true
  · rw [dbmPrereq, if_pos h1] at hc
    simp [h1, hc]
  · by_cases h2 : (cand == "gdbm") = true
    · rw [dbmPrereq, if_neg h1, if_pos h2] at hc
      simp [h1, h2, hc]
    · by_cases h3 : (cand == "bdb") = true
      · rw [dbmPrereq, if_neg h1, if_neg h2, if_pos h3] at hc
        simp [h1, h2, h3, hc]
      · rw [dbmPrereq, if_neg h1, if_neg h2, if_neg h3] at hc
        simp at hc

theorem dbmLoop_skip (H : DbmHaves) (o₁ rest : List String)
    (h : ∀ c ∈ o₁, dbmPrereq H c = false) :
    dbmLoop H (o₁ ++ rest) = dbmLoop H rest := by
  induction o₁ with
  | nil => rfl
  | cons cand o ih =>
    rw [List.cons_append,
      dbmLoop_cons_false H cand _ (h cand (List.mem_cons_self _ _))]
    exact ih (fun c hc => h c (List.mem_cons_of_mem _ hc))

theorem dbmLoop_of_none (H : DbmHaves) (l : List String)
    (h : ∀ c ∈ l, dbmPrereq H c = false) : dbmLoop H l = none := by
  induction l with
  | nil => rfl
  | cons cand rest ih =>
    rw [dbmLoop_cons_false H cand rest (h cand (List.mem_cons_self _ _))]
    exact ih (fun c hc => h c (List.mem_cons_of_mem _ hc))

/-- C7: the dbm detector honours the configured backend preference order
(default `ndbm:gdbm:bdb`), registers exactly one `_dbm` candidate for the
first backend whose prerequisites are present, and records `_dbm` missing
when no backend matches (the `_gdbm` tail of the routine is carried along
explicitly). -/
theorem detect_dbm_gdbm_spec (H : DbmHaves) (config_args : String)
    (st : BuildState) (o₁ : List String) (cand : String) (o₂ : List String) :
    ((((pyWhitespaceSplit config_args).map (stripChar '\'')).filter
        (fun arg => strStarts arg "--with-dbmliborder=") = [] →
      dbmOrderOf config_args = ["ndbm", "gdbm", "bdb"])
    ∧ (dbmOrderOf config_args = o₁ ++ cand :: o₂ →
        (∀ c ∈ o₁, dbmPrereq H c = false) →
        dbmPrereq H cand = true →
        detect_dbm_gdbm false H config_args st
          = if (dbmOrderOf config_args).contains "gdbm" && H.libgdbm then
              ⟨st.missing, st.extensions ++ [dbmExtFor H cand, gdbmExt]⟩
            else
              ⟨st.missing ++ ["_gdbm"], st.extensions ++ [dbmExtFor H cand]⟩)
    ∧ ((∀ c ∈ dbmOrderOf config_args, dbmPrereq H c = false) →
        detect_dbm_gdbm false H config_args st
          = if (dbmOrderOf config_args).contains "gdbm" && H.libgdbm then
              ⟨st.missing ++ ["_dbm"], st.extensions ++ [gdbmExt]⟩
            else
              ⟨st.missing ++ ["_dbm", "_gdbm"], st.extensions⟩)) := by
  refine ⟨fun h => ?_, fun horder hskip hcand => ?_, fun hnone => ?_⟩
  · simp only [dbmOrderOf, h, List.getLast?_nil]
    decide
  · have hloop : dbmLoop H (dbmOrderOf config_args) = some (dbmExtFor H cand) := by
      rw [horder, dbmLoop_skip H o₁ _ hskip, dbmLoop_cons_true H cand o₂ hcand]
    by_cases hg : ((dbmOrderOf config_args).contains "gdbm" && H.libgdbm) = true <;>
      simp [detect_dbm_gdbm, hloop, hg, List.append_assoc]
  · have hloop : dbmLoop H (dbmOrderOf config_args) = none :=
      dbmLoop_of_none H _ hnone
    by_cases hg : ((dbmOrderOf config_args).contains "gdbm" && H.libgdbm) = true <;>
      simp [detect_dbm_gdbm, hloop, hg, List.append_assoc]

/-- The config-store facts for the C7 witness: only the ndbm backend has
its prerequisites (`HAVE_NDBM_H`, `HAVE_LIBNDBM`). -/
def dbmHW : DbmHaves :=
  { ndbm_h := true, gdbm_h := false, gdbm_ndbm_h := false,
    gdbm_dash_ndbm_h := false, libndbm := true, libgdbm := false,
    libgdbm_compat := false, libdb := false }

/-- C7 (witness): with preference order `gdbm:ndbm` and only the ndbm
prerequisites satisfied, exactly one `_dbm` candidate (the ndbm one) is
registered, `_dbm` is not recorded missing, and no candidate is registered
for any other backend. -/
theorem detect_dbm_gdbm_spec_witness :
    detect_dbm_gdbm false dbmHW "--with-dbmliborder=gdbm:ndbm" ⟨[], []⟩
      = ⟨["_gdbm"], [ndbmExt dbmHW]⟩ :=
  ((detect_dbm_gdbm_spec dbmHW "--with-dbmliborder=gdbm:ndbm" ⟨[], []⟩
      ["gdbm"] "ndbm" []).2.1 (by decide) (by decide) (by decide)).trans
    (by decide)

end CPySetup
